import Mathlib

set_option linter.unusedVariables false

/-! Verification of the routing core of the vumi dispatcher
(`vumi/dispatchers/base.py`): a shallow embedding of the router classes
(`SimpleDispatchRouter`, `ToAddrRouter`, `FromAddrMultiplexRouter`,
`UserGroupingRouter`, `ContentKeywordRouter`) and theorems about their
routing behaviour.

Messages, events and configurations are embedded as Lean structures holding
the fields routing reads.  Publishing onto a named bus endpoint is embedded
as returning a `Publish` value; log calls are embedded as returned log lines.
The Redis collaborator is embedded as an association list of keys to values
with optional absolute expiry instants, with time passed explicitly.
Python exceptions that escape a dispatch method are embedded with `Except`;
exceptions the source catches are resolved inside the embedding.

String operations are implemented over `String.data` (the underlying
character list) so that every definition evaluates by kernel reduction;
they agree with the Python `str` operations on the strings involved
(`lower`, `startswith`, ordering, `':'.join`). -/

/-- Per-character lower-casing, as Python `str.lower` behaves on ASCII. -/
def strLower (s : String) : String := ⟨s.data.map Char.toLower⟩

/-- Python `s.startswith(pre)`. -/
def strStartsWith (s pre : String) : Bool := pre.data.isPrefixOf s.data

/-- Python `':'.join(parts)`. -/
def joinColon : List String → String
  | [] => ""
  | [s] => s
  | s :: rest => s ++ ":" ++ joinColon rest

/-- Lexicographic comparison of character lists by code point, as Python
compares strings. -/
def charListLe : List Char → List Char → Bool
  | [], _ => true
  | _ :: _, [] => false
  | c :: cs, d :: ds =>
    if c.val < d.val then true
    else if d.val < c.val then false
    else charListLe cs ds

/-- Python `s <= t` on strings. -/
def strLe (s t : String) : Bool := charListLe s.data t.data

/-- An inbound or outbound user message, restricted to the fields the
routers read: `transport_name`, `to_addr`, `from_addr`, `content`
(nullable) and `message_id`. -/
structure Msg where
  transport_name : String
  to_addr : String
  from_addr : String
  content : Option String
  message_id : String
  deriving DecidableEq, Repr

/-- A transport event (acknowledgement or delivery report); routing only
reads `user_message_id`. -/
structure Event where
  user_message_id : String
  deriving DecidableEq, Repr

/-- Modelled from the spec: `TransportUserMessage.user()` is not among the
included sources; §4.6 says the user identifier is derived from the
message's `from_addr`. -/
def Msg.user (m : Msg) : String := m.from_addr

/-- One publication onto a named bus endpoint: an exposed application's
inbound endpoint, an exposed application's event endpoint, or a
transport's outbound endpoint. -/
inductive Publish where
  | exposedInbound (name : String) (msg : Msg)
  | exposedEvent (name : String) (ev : Event)
  | transportOut (name : String) (msg : Msg)
  deriving DecidableEq, Repr

/-- The observable outcome of one dispatch call: the bus publications it
performed, in order, and the log lines it emitted, in order. -/
structure DispatchResult where
  publishes : List Publish
  logs : List String
  deriving DecidableEq, Repr

/-! ## The Redis collaborator

`redis.Redis` supports `get`, `set` and `expire` as used by the routers.
An entry holds a key, a value and an optional absolute expiry instant;
`rget` takes the current instant explicitly.  A key whose expiry instant
has been reached behaves as absent. -/

/-- One key-value entry of the Redis store, with optional absolute expiry. -/
structure REntry where
  key : String
  val : String
  expireAt : Option Nat
  deriving DecidableEq, Repr

/-- The Redis store: entries, most recently set first. -/
abbrev RedisStore := List REntry

/-- Redis `GET` at instant `now`: the value of `k`, unless absent or expired. -/
def rget (store : RedisStore) (now : Nat) (k : String) : Option String :=
  match store.find? (fun e => e.key == k) with
  | some e =>
    match e.expireAt with
    | none => some e.val
    | some t => if now < t then some e.val else none
  | none => none

/-- Redis `SET`: overwrite `k` with `v`, clearing any expiry. -/
def rset (store : RedisStore) (k v : String) : RedisStore :=
  ⟨k, v, none⟩ :: store.filter (fun e => e.key != k)

/-- Redis `EXPIRE` issued at instant `now` with time-to-live `ttl`:
the entry for `k`, if any, now expires at `now + ttl`. -/
def rexpire (store : RedisStore) (now : Nat) (k : String) (ttl : Nat) : RedisStore :=
  store.map (fun e => if e.key == k then ⟨e.key, e.val, some (now + ttl)⟩ else e)

/-- `BaseDispatchRouter.r_key` as specialised in the routers:
`':'.join([self.r_prefix] + parts)`. -/
def r_key (pre : String) (parts : List String) : String :=
  joinColon (pre :: parts)

/-- Modelled from the spec: `get_first_word` (imported from `vumi.utils`,
which is not among the included sources) extracts the first
whitespace-delimited token of the content, treating absent content as the
empty string. -/
def get_first_word (content : Option String) : String :=
  ⟨(content.getD "").data.takeWhile (fun c => !c.isWhitespace)⟩

/-! ## ContentKeywordRouter -/

/-- A routing rule after setup: `app` and `keyword` are required, `to_addr`
and `pfx` (the rule's `prefix` key, a constraint on `from_addr`) optional. -/
structure Rule where
  app : String
  keyword : String
  to_addr : Option String
  pfx : Option String
  deriving DecidableEq, Repr

/-- A rule as it appears in the configuration, before validation: a
dictionary that may lack the required keys. -/
structure RawRule where
  app : Option String
  keyword : Option String
  to_addr : Option String
  pfx : Option String
  deriving DecidableEq, Repr

/-- The configuration of a `ContentKeywordRouter`. -/
structure CKRConfig where
  dispatcher_name : String
  rules : List RawRule
  keyword_mappings : List (String × String)
  fallback_application : Option String
  transport_mappings : List (String × String)
  expire_routing_memory : Nat
  deriving DecidableEq, Repr

/-- The state of a `ContentKeywordRouter` after a successful
`setup_routing`. -/
structure CKRState where
  dispatcher_name : String
  rules : List Rule
  fallback_application : Option String
  transport_mappings : List (String × String)
  expire_routing_timeout : Nat
  deriving DecidableEq, Repr

/-- Validate one explicit rule: it must carry both `app` and `keyword`;
its keyword is lower-cased. -/
def validateRule (r : RawRule) : Except String Rule :=
  match r.keyword, r.app with
  | some kw, some app =>
    .ok { app := app, keyword := strLower kw, to_addr := r.to_addr, pfx := r.pfx }
  | _, _ => .error "ConfigError: rule must contain values for both app and keyword"

/-- The validation loop of `ContentKeywordRouter.setup_routing`: validate
the explicit rules in order, raising on the first malformed one. -/
def validateRules : List RawRule → Except String (List Rule)
  | [] => .ok []
  | r :: rs => do
    let rule ← validateRule r
    let rest ← validateRules rs
    .ok (rule :: rest)

/-- `ContentKeywordRouter.setup_routing`: validate and lower-case the
explicit rules, append the rules generated from `keyword_mappings`
(also lower-cased), and record the remaining options. -/
def ContentKeywordRouter.setup_routing (config : CKRConfig) : Except String CKRState := do
  let explicit ← validateRules config.rules
  let generated := config.keyword_mappings.map
    (fun p => { app := p.1, keyword := strLower p.2, to_addr := none, pfx := none : Rule })
  .ok { dispatcher_name := config.dispatcher_name,
        rules := explicit ++ generated,
        fallback_application := config.fallback_application,
        transport_mappings := config.transport_mappings,
        expire_routing_timeout := config.expire_routing_memory }

/-- `ContentKeywordRouter.get_message_key`. -/
def ContentKeywordRouter.get_message_key (st : CKRState) (message : String) : String :=
  r_key st.dispatcher_name ["message", message]

/-- `ContentKeywordRouter.is_msg_matching_routing_rules`. -/
def is_msg_matching_routing_rules (keyword : String) (msg : Msg) (rule : Rule) : Bool :=
  keyword == rule.keyword &&
  (match rule.to_addr with
   | none => true
   | some a => msg.to_addr == a) &&
  (match rule.pfx with
   | none => true
   | some p => strStartsWith msg.from_addr p)

/-- `ContentKeywordRouter.dispatch_inbound_message`: publish to the app of
every matching rule; with no match, publish to the fallback application if
one is configured, else log a routing miss. -/
def ContentKeywordRouter.dispatch_inbound_message (st : CKRState) (msg : Msg) :
    DispatchResult :=
  let keyword := strLower (get_first_word msg.content)
  let matching := st.rules.filter (fun r => is_msg_matching_routing_rules keyword msg r)
  if matching.isEmpty then
    match st.fallback_application with
    | some fb => { publishes := [Publish.exposedInbound fb msg], logs := [] }
    | none => { publishes := [], logs := ["Message could not be routed"] }
  else
    { publishes := matching.map (fun r => Publish.exposedInbound r.app msg), logs := [] }

/-- `ContentKeywordRouter.dispatch_inbound_event`: look up the stored
return-route name for `user_message_id`; a falsy result (absent key, or
the empty string) logs a miss; the publish attempt is wrapped in a bare
`except` clause, so a missing publisher (absent name, or a name not among
the dispatcher's exposed names) is caught and logged, never raised. -/
def ContentKeywordRouter.dispatch_inbound_event (st : CKRState) (store : RedisStore)
    (now : Nat) (exposed_names : List String) (ev : Event) : DispatchResult :=
  let message_key := ContentKeywordRouter.get_message_key st ev.user_message_id
  let name? := rget store now message_key
  let missLogs :=
    if (name?.getD "") == "" then
      ["No transport_name for return route found in Redis"]
    else []
  match name? with
  | some name =>
    if exposed_names.contains name then
      { publishes := [Publish.exposedEvent name ev], logs := missLogs }
    else
      { publishes := [], logs := missLogs ++ ["No publishing route"] }
  | none => { publishes := [], logs := missLogs ++ ["No publishing route"] }

/-- `ContentKeywordRouter.dispatch_outbound_message`: resolve the transport
from `transport_mappings[from_addr]`; if found, publish there, store the
message's own `transport_name` under the message key and set its expiry to
`expire_routing_timeout` from now; otherwise log and drop. -/
def ContentKeywordRouter.dispatch_outbound_message (st : CKRState) (store : RedisStore)
    (now : Nat) (msg : Msg) : DispatchResult × RedisStore :=
  match st.transport_mappings.lookup msg.from_addr with
  | some transport_name =>
    let message_key := ContentKeywordRouter.get_message_key st msg.message_id
    let store1 := rset store message_key msg.transport_name
    let store2 := rexpire store1 now message_key st.expire_routing_timeout
    ({ publishes := [Publish.transportOut transport_name msg], logs := [] }, store2)
  | none => ({ publishes := [], logs := ["No transport for from_addr"] }, store)

/-! ## SimpleDispatchRouter

The inbound publish loop iterates over configured exposed names; the
dispatcher's publisher table is total over those (worker wiring, spec §2),
so publishing itself is embedded as total.  The `route_mappings` lookup
uses Python dict indexing, whose `KeyError` propagates: the embedding
returns `Except`. -/

/-- `SimpleDispatchRouter.dispatch_inbound_message`: fan out to every app
listed for the message's `transport_name`; a missing key raises. -/
def SimpleDispatchRouter.dispatch_inbound_message
    (route_mappings : List (String × List String)) (msg : Msg) :
    Except String (List Publish) :=
  match route_mappings.lookup msg.transport_name with
  | some names => .ok (names.map (fun n => Publish.exposedInbound n msg))
  | none => .error ("KeyError: " ++ msg.transport_name)

/-- `SimpleDispatchRouter.dispatch_inbound_event`: same lookup, publishing
onto the exposed event endpoints. -/
def SimpleDispatchRouter.dispatch_inbound_event
    (route_mappings : List (String × List String)) (tn : String) (ev : Event) :
    Except String (List Publish) :=
  match route_mappings.lookup tn with
  | some names => .ok (names.map (fun n => Publish.exposedEvent n ev))
  | none => .error ("KeyError: " ++ tn)

/-- `SimpleDispatchRouter.dispatch_outbound_message`: single destination,
the message's `transport_name` remapped through the optional
`transport_mappings` (defaulting to identity). -/
def SimpleDispatchRouter.dispatch_outbound_message
    (transport_mappings : List (String × String)) (msg : Msg) : List Publish :=
  let name := msg.transport_name
  let name := (transport_mappings.lookup name).getD name
  [Publish.transportOut name msg]

/-! ## ToAddrRouter

`toaddr_mappings` maps each app name to a regular expression, compiled once
at setup by the external `re` library.  Regular expressions are embedded as
an abstract syntax tree with Brzozowski-derivative matching; `re.match`
(match at position zero, any prefix of the subject may be consumed) is
embedded by `rmatch`. -/

/-- Abstract syntax of a compiled regular expression. -/
inductive Regex where
  | emp
  | eps
  | char (c : Char)
  | alt (r1 r2 : Regex)
  | cat (r1 r2 : Regex)
  | star (r : Regex)
  deriving DecidableEq, Repr

/-- Does the expression accept the empty string? -/
def Regex.nullable : Regex → Bool
  | .emp => false
  | .eps => true
  | .char _ => false
  | .alt r1 r2 => r1.nullable || r2.nullable
  | .cat r1 r2 => r1.nullable && r2.nullable
  | .star _ => true

/-- Brzozowski derivative of the expression with respect to one character. -/
def Regex.deriv (r : Regex) (c : Char) : Regex :=
  match r with
  | .emp => .emp
  | .eps => .emp
  | .char d => if c == d then .eps else .emp
  | .alt r1 r2 => .alt (r1.deriv c) (r2.deriv c)
  | .cat r1 r2 =>
    if r1.nullable then .alt (.cat (r1.deriv c) r2) (r2.deriv c)
    else .cat (r1.deriv c) r2
  | .star r1 => .cat (r1.deriv c) (.star r1)

/-- Whole-string acceptance: the expression accepts exactly this character
list. -/
def Regex.accepts (r : Regex) : List Char → Bool
  | [] => r.nullable
  | c :: cs => (r.deriv c).accepts cs

/-- Match at position zero consuming any prefix of the subject, as
`re.match` does. -/
def Regex.matchHere (r : Regex) : List Char → Bool
  | [] => r.nullable
  | c :: cs => r.nullable || (r.deriv c).matchHere cs

/-- Python `regex.match(s)` truthiness: some prefix of `s` is accepted. -/
def rmatch (r : Regex) (s : String) : Bool := r.matchHere s.data

/-- `ToAddrRouter.dispatch_inbound_message`: publish to every app whose
pattern matches `to_addr` at position zero; nothing is logged. -/
def ToAddrRouter.dispatch_inbound_message
    (mappings : List (String × Regex)) (msg : Msg) : DispatchResult :=
  { publishes :=
      (mappings.filter (fun p => rmatch p.2 msg.to_addr)).map
        (fun p => Publish.exposedInbound p.1 msg),
    logs := [] }

/-! ## FromAddrMultiplexRouter -/

/-- `FromAddrMultiplexRouter.setup_routing`: exactly one exposed name is
required; it is bound as the single exposed name. -/
def FromAddrMultiplexRouter.setup_routing (exposed_names : List String) :
    Except String String :=
  match exposed_names with
  | [n] => .ok n
  | _ => .error "ConfigError: Only one exposed name allowed"

/-- `FromAddrMultiplexRouter._handle_inbound` as used by
`dispatch_inbound_message`: rewrite `transport_name` to the single exposed
name and publish to its inbound endpoint. -/
def FromAddrMultiplexRouter.dispatch_inbound_message (exposed_name : String)
    (msg : Msg) : List Publish :=
  let msg2 := { msg with transport_name := exposed_name }
  [Publish.exposedInbound exposed_name msg2]

/-- `FromAddrMultiplexRouter.dispatch_outbound_message`: the
`fromaddr_mappings` lookup uses Python dict indexing, so a missing
`from_addr` raises a `KeyError` to the caller; on success the message's
`transport_name` is rewritten to the resolved transport and the message is
published there. -/
def FromAddrMultiplexRouter.dispatch_outbound_message
    (fromaddr_mappings : List (String × String)) (msg : Msg) :
    Except String (List Publish) :=
  match fromaddr_mappings.lookup msg.from_addr with
  | some name =>
    let msg2 := { msg with transport_name := name }
    .ok [Publish.transportOut name msg2]
  | none => .error ("KeyError: " ++ msg.from_addr)

/-! ## UserGroupingRouter

The Redis keys this router uses are the round-robin counter
(`prefix:round-robin`, an integer manipulated only through `INCR`) and one
group-name entry per user (`prefix:user:<id>`).  They are embedded as a
dedicated state: the counter as a `Nat` (the number of `INCR`s so far, which
is the stored integer) and the user entries as an association list keyed by
the full Redis key string. -/

/-- The configuration of a `UserGroupingRouter`. -/
structure UGRConfig where
  dispatcher_name : String
  group_mappings : List (String × String)
  deriving DecidableEq, Repr

/-- The Redis-backed state of a `UserGroupingRouter`. -/
structure UGRState where
  counter : Nat
  users : List (String × String)
  deriving DecidableEq, Repr

/-- Overwrite the entry for `k` in an association list. -/
def assocSet (l : List (String × String)) (k v : String) : List (String × String) :=
  (k, v) :: l.filter (fun p => p.1 != k)

/-- Insert a `(group, app)` pair into a list sorted by Python tuple
comparison. -/
def insertSorted (p : String × String) :
    List (String × String) → List (String × String)
  | [] => [p]
  | q :: qs =>
    if strLe p.1 q.1 && (p.1 != q.1 || strLe p.2 q.2) then p :: q :: qs
    else q :: insertSorted p qs

/-- Python `sorted(d.items())`: insertion sort by tuple comparison. -/
def sortPairs : List (String × String) → List (String × String)
  | [] => []
  | p :: ps => insertSorted p (sortPairs ps)

/-- `UserGroupingRouter.get_counter`: `INCR` the round-robin counter and
return the incremented value minus one. -/
def UserGroupingRouter.get_counter (st : UGRState) : Nat × UGRState :=
  (st.counter, { st with counter := st.counter + 1 })

/-- `UserGroupingRouter.get_next_group`: the counter modulo the number of
groups indexes into the group-name-sorted list of configured groups. -/
def UserGroupingRouter.get_next_group (cfg : UGRConfig) (st : UGRState) :
    (String × String) × UGRState :=
  let (counter, st1) := UserGroupingRouter.get_counter st
  let current_group_id := counter % cfg.group_mappings.length
  let sorted_groups := sortPairs cfg.group_mappings
  (sorted_groups.getD current_group_id ("", ""), st1)

/-- `UserGroupingRouter.get_user_key`. -/
def UserGroupingRouter.get_user_key (cfg : UGRConfig) (user_id : String) : String :=
  r_key cfg.dispatcher_name ["user", user_id]

/-- `UserGroupingRouter.get_group_for_user`: read the stored group for the
user; a falsy read (absent key, or the empty string) assigns the next
round-robin group and stores it before returning it. -/
def UserGroupingRouter.get_group_for_user (cfg : UGRConfig) (st : UGRState)
    (user_id : String) : String × UGRState :=
  let user_key := UserGroupingRouter.get_user_key cfg user_id
  let stored := (st.users.lookup user_key).getD ""
  if stored == "" then
    let (p, st1) := UserGroupingRouter.get_next_group cfg st
    (p.1, { st1 with users := assocSet st1.users user_key p.1 })
  else
    (stored, st)

/-- `UserGroupingRouter.dispatch_inbound_message`: resolve the user's group,
then the group's app through `group_mappings` (Python dict indexing: a
missing group raises), and publish to that app; the Redis state threads
through even when the app lookup raises. -/
def UserGroupingRouter.dispatch_inbound_message (cfg : UGRConfig) (st : UGRState)
    (msg : Msg) : Except String DispatchResult × UGRState :=
  let (group, st1) := UserGroupingRouter.get_group_for_user cfg st msg.user
  match cfg.group_mappings.lookup group with
  | some app =>
    (.ok { publishes := [Publish.exposedInbound app msg], logs := [] }, st1)
  | none => (.error ("KeyError: " ++ group), st1)

/-! ## Specification-side predicate

The claim about `ContentKeywordRouter`'s inbound matching words the
condition directly; it is written here as its own definition so the
theorems can compare it with the code's
`is_msg_matching_routing_rules`. -/

/-- The rule-match condition as the specification words it: the token
equals the rule's keyword, the rule's `to_addr` constraint (if present)
equals the message's `to_addr`, and the rule's `prefix` constraint (if
present) is a prefix of the message's `from_addr`. -/
def specRuleMatches (keyword : String) (msg : Msg) (r : Rule) : Bool :=
  keyword == r.keyword &&
  (match r.to_addr with
   | none => true
   | some t => msg.to_addr == t) &&
  (match r.pfx with
   | none => true
   | some p => strStartsWith msg.from_addr p)

/-! ## Fixtures

Concrete configurations and messages used to instantiate the theorems. -/

/-- An inbound message whose content starts with the keyword REGISTER. -/
def msgRegister : Msg :=
  { transport_name := "app1", to_addr := "8181", from_addr := "+278312345",
    content := some "REGISTER please", message_id := "m1" }

/-- A routing rule for the keyword `register`. -/
def ruleRegister : Rule :=
  { app := "app1", keyword := "register", to_addr := none, pfx := none }

/-- A `ContentKeywordRouter` state with one rule and a fallback. -/
def ckrStateEx : CKRState :=
  { dispatcher_name := "disp", rules := [ruleRegister],
    fallback_application := some "app2",
    transport_mappings := [("+278312345", "t1")],
    expire_routing_timeout := 60 }

/-- A well-formed `ContentKeywordRouter` configuration. -/
def ckrConfigEx : CKRConfig :=
  { dispatcher_name := "disp",
    rules := [{ app := some "app1", keyword := some "REGISTER",
                to_addr := none, pfx := none }],
    keyword_mappings := [("app3", "STOP")],
    fallback_application := some "app2",
    transport_mappings := [("+278312345", "t1")],
    expire_routing_memory := 60 }

/-- A `UserGroupingRouter` configuration one of whose groups is named by
the empty string. -/
def ugrConfigEmptyName : UGRConfig :=
  { dispatcher_name := "d", group_mappings := [("", "app1"), ("x", "app2")] }

/-- A `UserGroupingRouter` configuration with two ordinarily-named groups. -/
def ugrConfigAB : UGRConfig :=
  { dispatcher_name := "d", group_mappings := [("a", "app1"), ("b", "app2")] }

/-- An inbound message from user `u`. -/
def msgFromU : Msg :=
  { transport_name := "t1", to_addr := "123", from_addr := "u",
    content := some "hi", message_id := "m1" }

/-- An event correlated to message id `m1`. -/
def evM1 : Event := { user_message_id := "m1" }

/-- The compiled form of the pattern `123`. -/
def re123 : Regex := .cat (.char '1') (.cat (.char '2') (.char '3'))

/-- An inbound message addressed to `12345`. -/
def msgTo12345 : Msg :=
  { transport_name := "t1", to_addr := "12345", from_addr := "+27000",
    content := some "hello", message_id := "m2" }

/-! ## Helper lemmas -/

/-- After `SET k v` followed by `EXPIRE k ttl` at instant `now`, a `GET` of
`k` at instant `now2` returns `v` exactly while `now2 < now + ttl`. -/
theorem rget_rset_rexpire (store : RedisStore) (now now2 ttl : Nat) (k v : String) :
    rget (rexpire (rset store k v) now k ttl) now2 k
      = if now2 < now + ttl then some v else none := by
  simp [rget, rset, rexpire, List.find?_cons]

/-- `validateRules` succeeds exactly when every raw rule carries both an
`app` and a `keyword`. -/
theorem validateRules_ok_iff (rules : List RawRule) :
    (∃ l, validateRules rules = .ok l) ↔
      ∀ r ∈ rules, r.app.isSome ∧ r.keyword.isSome := by
  induction rules with
  | nil => simp [validateRules]
  | cons r rs ih =>
    constructor
    · rintro ⟨l, hl⟩
      rw [validateRules] at hl
      cases hr : validateRule r with
      | error e => rw [hr] at hl; simp [Bind.bind, Except.bind] at hl
      | ok rule =>
        rw [hr] at hl
        cases hrs : validateRules rs with
        | error e => rw [hrs] at hl; simp [Bind.bind, Except.bind] at hl
        | ok rest =>
          intro r' hr'
          rcases List.mem_cons.mp hr' with h | h
          · subst h
            unfold validateRule at hr
            cases hk : r'.keyword with
            | none => rw [hk] at hr; simp at hr
            | some kw =>
              cases ha : r'.app with
              | none => rw [hk, ha] at hr; simp at hr
              | some app => simp [hk, ha]
          · exact (ih.mp ⟨rest, hrs⟩) r' h
    · intro h
      have hr := h r (List.mem_cons_self r rs)
      obtain ⟨rest, hrest⟩ := ih.mpr (fun r' hr' => h r' (List.mem_cons_of_mem r hr'))
      cases hk : r.keyword with
      | none => rw [hk] at hr; simp at hr
      | some kw =>
        cases ha : r.app with
        | none => rw [hk, ha] at hr; simp at hr
        | some app =>
          refine ⟨{ app := app, keyword := strLower kw,
                    to_addr := r.to_addr, pfx := r.pfx } :: rest, ?_⟩
          rw [validateRules]
          simp [validateRule, hk, ha, Bind.bind, Except.bind, hrest]

/-- Every validated configured rule appears, lower-cased, in the output of
`validateRules`. -/
theorem validateRules_mem (rules : List RawRule) (l : List Rule)
    (h : validateRules rules = .ok l) :
    ∀ r ∈ rules, ∀ app kw, r.app = some app → r.keyword = some kw →
      ({ app := app, keyword := strLower kw,
         to_addr := r.to_addr, pfx := r.pfx } : Rule) ∈ l := by
  induction rules generalizing l with
  | nil => intro r hr; simp at hr
  | cons r0 rs ih =>
    intro r hr app kw happ hkw
    rw [validateRules] at h
    cases hr0 : validateRule r0 with
    | error e => rw [hr0] at h; simp [Bind.bind, Except.bind] at h
    | ok rule =>
      rw [hr0] at h
      cases hrs : validateRules rs with
      | error e => rw [hrs] at h; simp [Bind.bind, Except.bind] at h
      | ok rest =>
        rw [hrs] at h
        simp [Bind.bind, Except.bind, pure, Except.pure] at h
        rcases List.mem_cons.mp hr with heq | hmem
        · subst heq
          unfold validateRule at hr0
          rw [hkw, happ] at hr0
          simp at hr0
          rw [← h, ← hr0]
          exact List.mem_cons_self _ _
        · rw [← h]
          exact List.mem_cons_of_mem _ (ih rest hrs r hmem app kw happ hkw)

/-! ## Claim theorems -/

/-- C8: `FromAddrMultiplexRouter` setup fails with a configuration error
exactly when `exposed_names` does not have exactly one entry, binding the
single exposed name otherwise; `ContentKeywordRouter` setup fails with a
configuration error exactly when some explicit rule lacks an `app` or
`keyword` key, and otherwise lower-cases every rule keyword at load time. -/
theorem setup_validation (exposed_names : List String) (cfg : CKRConfig) :
    ((∃ n, FromAddrMultiplexRouter.setup_routing exposed_names = .ok n) ↔
      exposed_names.length = 1) ∧
    (∀ n, exposed_names = [n] →
      FromAddrMultiplexRouter.setup_routing exposed_names = .ok n) ∧
    ((∃ st, ContentKeywordRouter.setup_routing cfg = .ok st) ↔
      ∀ r ∈ cfg.rules, r.app.isSome ∧ r.keyword.isSome) ∧
    (∀ st, ContentKeywordRouter.setup_routing cfg = .ok st →
      (∀ r ∈ cfg.rules, ∀ app kw, r.app = some app → r.keyword = some kw →
        ({ app := app, keyword := strLower kw, to_addr := r.to_addr,
           pfx := r.pfx } : Rule) ∈ st.rules) ∧
      ∀ p ∈ cfg.keyword_mappings,
        ({ app := p.1, keyword := strLower p.2, to_addr := none,
           pfx := none } : Rule) ∈ st.rules) := by
  refine ⟨?_, ?_, ?_, ?_⟩
  · cases exposed_names with
    | nil => simp [FromAddrMultiplexRouter.setup_routing]
    | cons n t =>
      cases t with
      | nil => simp [FromAddrMultiplexRouter.setup_routing]
      | cons m t' => simp [FromAddrMultiplexRouter.setup_routing]
  · intro n h
    subst h
    rfl
  · cases hv : validateRules cfg.rules with
    | error e =>
      rw [← validateRules_ok_iff]
      simp [ContentKeywordRouter.setup_routing, hv, Bind.bind, Except.bind]
    | ok l =>
      rw [← validateRules_ok_iff]
      simp [ContentKeywordRouter.setup_routing, hv, Bind.bind, Except.bind]
  · intro st hst
    cases hv : validateRules cfg.rules with
    | error e =>
      rw [ContentKeywordRouter.setup_routing] at hst
      rw [hv] at hst
      simp [Bind.bind, Except.bind] at hst
    | ok l =>
      rw [ContentKeywordRouter.setup_routing] at hst
      rw [hv] at hst
      simp [Bind.bind, Except.bind, pure, Except.pure] at hst
      constructor
      · intro r hr app kw happ hkw
        rw [← hst]
        exact List.mem_append_left _ (validateRules_mem cfg.rules l hv r hr app kw happ hkw)
      · intro p hp
        rw [← hst]
        refine List.mem_append_right _ ?_
        exact List.mem_map.mpr ⟨p, hp, rfl⟩

/-- C8 witness: one exposed name binds it, and the example configuration's
rule with keyword `REGISTER` is loaded lower-cased as `register`. -/
theorem setup_validation_witness :
    FromAddrMultiplexRouter.setup_routing ["multi"] = .ok "multi" ∧
    ∃ st, ContentKeywordRouter.setup_routing ckrConfigEx = .ok st ∧
      ruleRegister ∈ st.rules := by
  obtain ⟨h1, h2, h3, h4⟩ := setup_validation ["multi"] ckrConfigEx
  refine ⟨h2 "multi" rfl, ?_⟩
  obtain ⟨st, hst⟩ := h3.mpr (by decide)
  refine ⟨st, hst, ?_⟩
  have hmem := (h4 st hst).1
      { app := some "app1", keyword := some "REGISTER", to_addr := none, pfx := none }
      (by decide) "app1" "REGISTER" rfl rfl
  have he : strLower "REGISTER" = "register" := by decide
  rw [he] at hmem
  exact hmem

/-- C4 counterexample: with `fromaddr_mappings = [("+111", "t1")]` and an
outbound message whose `from_addr` `u` is absent from the mapping,
`dispatch_outbound_message` surfaces the lookup failure to the caller
instead of logging and dropping. -/
theorem fromaddr_outbound_missing_raises :
    FromAddrMultiplexRouter.dispatch_outbound_message [("+111", "t1")] msgFromU
      = .error "KeyError: u" := rfl

/-- C4 (amended): when the outbound message's `from_addr` is a key of
`fromaddr_mappings`, the message's `transport_name` is rewritten to the
resolved transport and the message is published to that transport; when it
is absent, the lookup failure propagates to the caller (zero publishes and
no logged diagnostic). -/
theorem fromaddr_outbound_behaviour
    (fromaddr_mappings : List (String × String)) (msg : Msg) :
    (∀ t, fromaddr_mappings.lookup msg.from_addr = some t →
      FromAddrMultiplexRouter.dispatch_outbound_message fromaddr_mappings msg
        = .ok [Publish.transportOut t { msg with transport_name := t }]) ∧
    (fromaddr_mappings.lookup msg.from_addr = none →
      ∃ e, FromAddrMultiplexRouter.dispatch_outbound_message fromaddr_mappings msg
        = .error e) := by
  constructor
  · intro t ht
    simp [FromAddrMultiplexRouter.dispatch_outbound_message, ht]
  · intro h
    simp [FromAddrMultiplexRouter.dispatch_outbound_message, h]

/-- C4 witness: a mapped `from_addr` is republished on the resolved
transport with its `transport_name` rewritten. -/
theorem fromaddr_outbound_behaviour_witness :
    FromAddrMultiplexRouter.dispatch_outbound_message [("u", "t9")] msgFromU
      = .ok [Publish.transportOut "t9" { msgFromU with transport_name := "t9" }] :=
  (fromaddr_outbound_behaviour [("u", "t9")] msgFromU).1 "t9" (by decide)

/-- C9: when the correlation lookup for the event's `user_message_id` finds
no entry, `ContentKeywordRouter.dispatch_inbound_event` logs a diagnostic,
still attempts the publish with the absent name, and that failure is
caught and logged: zero publishes, two diagnostics, no exception (the
embedding is a total function). -/
theorem contentKeyword_event_miss_is_safe (st : CKRState) (store : RedisStore)
    (now : Nat) (exposed_names : List String) (ev : Event)
    (h : rget store now (ContentKeywordRouter.get_message_key st ev.user_message_id)
          = none) :
    (ContentKeywordRouter.dispatch_inbound_event st store now exposed_names ev).publishes
      = [] ∧
    (ContentKeywordRouter.dispatch_inbound_event st store now exposed_names ev).logs.length
      = 2 := by
  simp [ContentKeywordRouter.dispatch_inbound_event, h]

/-- C9 witness: an event against an empty store is dropped with two
diagnostics. -/
theorem contentKeyword_event_miss_is_safe_witness :
    (ContentKeywordRouter.dispatch_inbound_event ckrStateEx [] 0 ["app1"] evM1).publishes
      = [] ∧
    (ContentKeywordRouter.dispatch_inbound_event ckrStateEx [] 0 ["app1"] evM1).logs.length
      = 2 :=
  contentKeyword_event_miss_is_safe ckrStateEx [] 0 ["app1"] evM1 (by decide)

/-- C5 counterexample: a configuration may list the same app twice for a
transport; the message is then published to that app twice, not exactly
once. -/
theorem simple_inbound_duplicate_publish :
    SimpleDispatchRouter.dispatch_inbound_message [("t1", ["app1", "app1"])] msgFromU
      = .ok [Publish.exposedInbound "app1" msgFromU,
             Publish.exposedInbound "app1" msgFromU] ∧
    [Publish.exposedInbound "app1" msgFromU,
     Publish.exposedInbound "app1" msgFromU].count
        (Publish.exposedInbound "app1" msgFromU) = 2 := ⟨rfl, by decide⟩

/-- C5 (amended): an inbound message whose `transport_name` `T` is a key of
`route_mappings` is published once per occurrence of each app in the list
configured for `T` — hence exactly once each when that list has no
duplicates — and a missing key surfaces the lookup failure at dispatch
time. -/
theorem simple_inbound_fanout
    (route_mappings : List (String × List String)) (msg : Msg) :
    (∀ names, route_mappings.lookup msg.transport_name = some names →
      SimpleDispatchRouter.dispatch_inbound_message route_mappings msg
        = .ok (names.map (fun n => Publish.exposedInbound n msg)) ∧
      (∀ a, (names.map (fun n => Publish.exposedInbound n msg)).count
          (Publish.exposedInbound a msg) = names.count a) ∧
      (names.Nodup → ∀ a ∈ names,
        (names.map (fun n => Publish.exposedInbound n msg)).count
          (Publish.exposedInbound a msg) = 1)) ∧
    (route_mappings.lookup msg.transport_name = none →
      ∃ e, SimpleDispatchRouter.dispatch_inbound_message route_mappings msg
        = .error e) := by
  have hinj : Function.Injective (fun n => Publish.exposedInbound n msg) := by
    intro x y hxy
    simpa using hxy
  constructor
  · intro names h
    refine ⟨by simp [SimpleDispatchRouter.dispatch_inbound_message, h], ?_, ?_⟩
    · intro a
      exact List.count_map_of_injective names _ hinj a
    · intro hnd a ha
      rw [List.count_map_of_injective names _ hinj a]
      exact List.count_eq_one_of_mem hnd ha
  · intro h
    simp [SimpleDispatchRouter.dispatch_inbound_message, h]

/-- C5 witness: a two-app route publishes each app once. -/
theorem simple_inbound_fanout_witness :
    SimpleDispatchRouter.dispatch_inbound_message [("t1", ["app1", "app2"])] msgFromU
      = .ok [Publish.exposedInbound "app1" msgFromU,
             Publish.exposedInbound "app2" msgFromU] :=
  ((simple_inbound_fanout [("t1", ["app1", "app2"])] msgFromU).1
    ["app1", "app2"] (by decide)).1

/-- `Regex.matchHere` holds on a character list exactly when the expression
accepts some prefix of that list — the documented semantics of `re.match`:
anchored at position zero, consuming any prefix. -/
theorem matchHere_iff_accepts_append (cs : List Char) : ∀ r : Regex,
    r.matchHere cs = true ↔ ∃ p q, cs = p ++ q ∧ r.accepts p = true := by
  induction cs with
  | nil =>
    intro r
    constructor
    · intro h
      exact ⟨[], [], rfl, h⟩
    · rintro ⟨p, q, hpq, hacc⟩
      have hp : p = [] := by
        cases p with
        | nil => rfl
        | cons x xs => simp at hpq
      subst hp
      exact hacc
  | cons c cs ih =>
    intro r
    rw [Regex.matchHere, Bool.or_eq_true]
    constructor
    · rintro (hn | hm)
      · exact ⟨[], c :: cs, rfl, hn⟩
      · obtain ⟨p, q, hpq, hacc⟩ := (ih _).mp hm
        exact ⟨c :: p, q, by rw [hpq, List.cons_append], hacc⟩
    · rintro ⟨p, q, hpq, hacc⟩
      cases p with
      | nil => exact Or.inl hacc
      | cons d p' =>
        rw [List.cons_append] at hpq
        injection hpq with hc hcs
        subst hc
        subst hcs
        exact Or.inr ((ih _).mpr ⟨p', q, rfl, hacc⟩)

/-- C6: `ToAddrRouter.dispatch_inbound_message` publishes to exactly those
apps one of whose configured expressions accepts some prefix of the
message's `to_addr` (matching anchored at position zero, not full-string);
zero matches yields zero publishes, and no diagnostic is logged in any
case. -/
theorem toaddr_inbound_anchored (mappings : List (String × Regex)) (msg : Msg) :
    (∀ a, Publish.exposedInbound a msg
        ∈ (ToAddrRouter.dispatch_inbound_message mappings msg).publishes ↔
      ∃ r, (a, r) ∈ mappings ∧
        ∃ p q, msg.to_addr.data = p ++ q ∧ r.accepts p = true) ∧
    (ToAddrRouter.dispatch_inbound_message mappings msg).logs = [] ∧
    ((∀ p ∈ mappings, rmatch p.2 msg.to_addr = false) →
      (ToAddrRouter.dispatch_inbound_message mappings msg).publishes = []) := by
  refine ⟨?_, rfl, ?_⟩
  · intro a
    simp only [ToAddrRouter.dispatch_inbound_message, List.mem_map, List.mem_filter]
    constructor
    · rintro ⟨⟨a', r⟩, ⟨hmem, hmatch⟩, heq⟩
      simp only [Publish.exposedInbound.injEq] at heq
      obtain ⟨ha, -⟩ := heq
      subst ha
      exact ⟨r, hmem, (matchHere_iff_accepts_append _ _).mp hmatch⟩
    · rintro ⟨r, hmem, p, q, hpq, hacc⟩
      refine ⟨(a, r), ⟨hmem, ?_⟩, rfl⟩
      exact (matchHere_iff_accepts_append _ _).mpr ⟨p, q, hpq, hacc⟩
  · intro h
    simp only [ToAddrRouter.dispatch_inbound_message]
    have hnil : mappings.filter (fun p => rmatch p.2 msg.to_addr) = [] :=
      List.filter_eq_nil_iff.mpr (fun p hp => by simp [h p hp])
    simp [hnil]

/-- C6 witness: the pattern `123` matches the address `12345` at position
zero (a proper prefix, so not a full-string match) and the message is
published to `app1`. -/
theorem toaddr_inbound_anchored_witness :
    Publish.exposedInbound "app1" msgTo12345
      ∈ (ToAddrRouter.dispatch_inbound_message [("app1", re123)] msgTo12345).publishes :=
  ((toaddr_inbound_anchored [("app1", re123)] msgTo12345).1 "app1").mpr
    ⟨re123, by decide, ['1', '2', '3'], ['4', '5'], by decide, by decide⟩

/-- Counting the publishes produced by mapping the matching rules to their
apps: the number of publishes to app `a` is the number of matching rules
whose app is `a`. -/
theorem count_publish_filter_map (msg : Msg) (a : String) (P : Rule → Bool)
    (rules : List Rule) :
    ((rules.filter P).map (fun r => Publish.exposedInbound r.app msg)).count
        (Publish.exposedInbound a msg)
      = (rules.filter (fun r => P r && r.app == a)).length := by
  induction rules with
  | nil => rfl
  | cons r rs ih =>
    by_cases hP : P r = true
    · by_cases ha : r.app = a
      · simp [List.filter_cons, hP, ha, List.count_cons, ih]
      · simp [List.filter_cons, hP, ha, List.count_cons, ih]
    · have hP' : P r = false := Bool.eq_false_iff.mpr hP
      simp [List.filter_cons, hP', ih]

/-- C1: the inbound keyword routing of `ContentKeywordRouter`.  The first
whitespace-delimited token of the content is lower-cased; when some rule
matches, the message is published to each matching rule's app once per
matching rule (duplicates included) and nothing is logged; when no rule
matches, the message goes to the configured fallback application, or with
no fallback it is dropped with one logged diagnostic and zero publishes.
A rule matches iff the token equals its keyword, its `to_addr` constraint
(if present) equals the message's `to_addr`, and its `prefix` constraint
(if present) is a prefix of the message's `from_addr`
(`specRuleMatches`). -/
theorem contentKeyword_inbound_fanout (st : CKRState) (msg : Msg) :
    (st.rules.any (specRuleMatches (strLower (get_first_word msg.content)) msg) = true →
      (ContentKeywordRouter.dispatch_inbound_message st msg).logs = [] ∧
      ∀ a, (ContentKeywordRouter.dispatch_inbound_message st msg).publishes.count
            (Publish.exposedInbound a msg)
          = (st.rules.filter (fun r =>
              specRuleMatches (strLower (get_first_word msg.content)) msg r
                && r.app == a)).length) ∧
    (st.rules.any (specRuleMatches (strLower (get_first_word msg.content)) msg) = false →
      (∀ fb, st.fallback_application = some fb →
        ContentKeywordRouter.dispatch_inbound_message st msg
          = { publishes := [Publish.exposedInbound fb msg], logs := [] }) ∧
      (st.fallback_application = none →
        (ContentKeywordRouter.dispatch_inbound_message st msg).publishes = [] ∧
        (ContentKeywordRouter.dispatch_inbound_message st msg).logs.length = 1)) := by
  constructor
  · intro hany
    have hne : (st.rules.filter
        (fun r => is_msg_matching_routing_rules
          (strLower (get_first_word msg.content)) msg r)).isEmpty = false := by
      rcases List.any_eq_true.mp hany with ⟨r, hr, hpr⟩
      exact List.isEmpty_eq_false.mpr (fun hnil => by
        have : r ∈ (st.rules.filter
            (fun r => is_msg_matching_routing_rules
              (strLower (get_first_word msg.content)) msg r)) :=
          List.mem_filter.mpr ⟨hr, hpr⟩
        rw [hnil] at this
        simp at this)
    have hres : ContentKeywordRouter.dispatch_inbound_message st msg
        = { publishes := (st.rules.filter
              (fun r => is_msg_matching_routing_rules
                (strLower (get_first_word msg.content)) msg r)).map
              (fun r => Publish.exposedInbound r.app msg),
            logs := [] } := by
      rw [ContentKeywordRouter.dispatch_inbound_message]
      rw [if_neg (by rw [hne]; exact Bool.false_ne_true)]
    rw [hres]
    exact ⟨rfl, fun a => count_publish_filter_map msg a _ st.rules⟩
  · intro hany
    have hnil : st.rules.filter
        (fun r => is_msg_matching_routing_rules
          (strLower (get_first_word msg.content)) msg r) = [] := by
      refine List.filter_eq_nil_iff.mpr ?_
      intro r hr
      have := List.any_eq_false.mp hany r hr
      exact fun hc => this hc
    have hres : ContentKeywordRouter.dispatch_inbound_message st msg
        = match st.fallback_application with
          | some fb => { publishes := [Publish.exposedInbound fb msg], logs := [] }
          | none => { publishes := [], logs := ["Message could not be routed"] } := by
      rw [ContentKeywordRouter.dispatch_inbound_message]
      rw [hnil]
      rfl
    constructor
    · intro fb hfb
      rw [hres, hfb]
    · intro hfb
      rw [hres, hfb]
      exact ⟨rfl, rfl⟩

/-- C1 witness: content `REGISTER please` against the rule with keyword
`register` publishes exactly once to `app1`. -/
theorem contentKeyword_inbound_fanout_witness :
    (ContentKeywordRouter.dispatch_inbound_message ckrStateEx msgRegister).publishes.count
        (Publish.exposedInbound "app1" msgRegister) = 1 := by
  have h := ((contentKeyword_inbound_fanout ckrStateEx msgRegister).1 (by decide)).2 "app1"
  rw [h]
  decide

/-- C2: correlation round trip.  Dispatching an outbound message whose
`from_addr` is mapped to a transport publishes it there and records the
correlation entry; an inbound event correlated to its `message_id` is
published to the originating exposed app while the TTL has not elapsed,
and after TTL expiry the lookup finds no entry and the event is dropped. -/
theorem contentKeyword_correlation_roundtrip
    (st : CKRState) (store : RedisStore) (now now2 : Nat)
    (msg : Msg) (ev : Event) (exposed_names : List String) (t : String)
    (hmap : st.transport_mappings.lookup msg.from_addr = some t)
    (hid : ev.user_message_id = msg.message_id)
    (hexp : exposed_names.contains msg.transport_name = true) :
    (ContentKeywordRouter.dispatch_outbound_message st store now msg).1.publishes
      = [Publish.transportOut t msg] ∧
    (now2 < now + st.expire_routing_timeout →
      (ContentKeywordRouter.dispatch_inbound_event st
          (ContentKeywordRouter.dispatch_outbound_message st store now msg).2 now2
          exposed_names ev).publishes
        = [Publish.exposedEvent msg.transport_name ev]) ∧
    (now + st.expire_routing_timeout ≤ now2 →
      rget (ContentKeywordRouter.dispatch_outbound_message st store now msg).2 now2
          (ContentKeywordRouter.get_message_key st ev.user_message_id) = none ∧
      (ContentKeywordRouter.dispatch_inbound_event st
          (ContentKeywordRouter.dispatch_outbound_message st store now msg).2 now2
          exposed_names ev).publishes = []) := by
  have hstore : (ContentKeywordRouter.dispatch_outbound_message st store now msg).2
      = rexpire (rset store (ContentKeywordRouter.get_message_key st msg.message_id)
          msg.transport_name) now
          (ContentKeywordRouter.get_message_key st msg.message_id)
          st.expire_routing_timeout := by
    rw [ContentKeywordRouter.dispatch_outbound_message, hmap]
  have hget : ∀ n2 : Nat,
      rget (ContentKeywordRouter.dispatch_outbound_message st store now msg).2 n2
        (ContentKeywordRouter.get_message_key st ev.user_message_id)
      = if n2 < now + st.expire_routing_timeout then some msg.transport_name
        else none := by
    intro n2
    rw [hstore, hid]
    exact rget_rset_rexpire store now n2 st.expire_routing_timeout
      (ContentKeywordRouter.get_message_key st msg.message_id) msg.transport_name
  refine ⟨?_, ?_, ?_⟩
  · rw [ContentKeywordRouter.dispatch_outbound_message, hmap]
  · intro h2
    have hname := hget now2
    rw [if_pos h2] at hname
    have hmem : msg.transport_name ∈ exposed_names := by simpa using hexp
    simp [ContentKeywordRouter.dispatch_inbound_event, hname, hmem]
  · intro h2
    have hname := hget now2
    rw [if_neg (Nat.not_lt.mpr h2)] at hname
    exact ⟨hname, by simp [ContentKeywordRouter.dispatch_inbound_event, hname]⟩

/-- C2 witness: message `m1` mapped to transport `t1`, event before expiry
is routed back to `app1`. -/
theorem contentKeyword_correlation_roundtrip_witness :
    (ContentKeywordRouter.dispatch_inbound_event ckrStateEx
        (ContentKeywordRouter.dispatch_outbound_message ckrStateEx [] 0 msgRegister).2 10
        ["app1"] evM1).publishes
      = [Publish.exposedEvent "app1" evM1] := by
  have h := (contentKeyword_correlation_roundtrip ckrStateEx [] 0 10 msgRegister evM1
      ["app1"] "t1" (by decide) rfl (by decide)).2.1 (by decide)
  exact h

/-- C10: the correlation entry written by the outbound dispatch stores the
message's own `transport_name` field — not the transport name resolved
through `transport_mappings` that the message was published to — and the
event dispatch keys the exposed event publishers by that stored value, so
return routing publishes exactly when the outbound `transport_name` names
an exposed application. -/
theorem contentKeyword_correlation_stores_transport_name_field
    (st : CKRState) (store : RedisStore) (now : Nat)
    (msg : Msg) (ev : Event) (exposed_names : List String) (t : String)
    (hmap : st.transport_mappings.lookup msg.from_addr = some t)
    (hid : ev.user_message_id = msg.message_id)
    (httl : 0 < st.expire_routing_timeout)
    (hneq : msg.transport_name ≠ t) :
    (ContentKeywordRouter.dispatch_outbound_message st store now msg).1.publishes
      = [Publish.transportOut t msg] ∧
    rget (ContentKeywordRouter.dispatch_outbound_message st store now msg).2 now
        (ContentKeywordRouter.get_message_key st msg.message_id)
      = some msg.transport_name ∧
    rget (ContentKeywordRouter.dispatch_outbound_message st store now msg).2 now
        (ContentKeywordRouter.get_message_key st msg.message_id)
      ≠ some t ∧
    (exposed_names.contains msg.transport_name = true →
      (ContentKeywordRouter.dispatch_inbound_event st
          (ContentKeywordRouter.dispatch_outbound_message st store now msg).2 now
          exposed_names ev).publishes
        = [Publish.exposedEvent msg.transport_name ev]) ∧
    (exposed_names.contains msg.transport_name = false →
      (ContentKeywordRouter.dispatch_inbound_event st
          (ContentKeywordRouter.dispatch_outbound_message st store now msg).2 now
          exposed_names ev).publishes = []) := by
  have hstore : (ContentKeywordRouter.dispatch_outbound_message st store now msg).2
      = rexpire (rset store (ContentKeywordRouter.get_message_key st msg.message_id)
          msg.transport_name) now
          (ContentKeywordRouter.get_message_key st msg.message_id)
          st.expire_routing_timeout := by
    rw [ContentKeywordRouter.dispatch_outbound_message, hmap]
  have hlt : now < now + st.expire_routing_timeout := Nat.lt_add_of_pos_right httl
  have hget : rget (ContentKeywordRouter.dispatch_outbound_message st store now msg).2 now
      (ContentKeywordRouter.get_message_key st msg.message_id)
      = some msg.transport_name := by
    rw [hstore]
    rw [rget_rset_rexpire store now now st.expire_routing_timeout
      (ContentKeywordRouter.get_message_key st msg.message_id) msg.transport_name]
    exact if_pos hlt
  have hgetEv : rget (ContentKeywordRouter.dispatch_outbound_message st store now msg).2 now
      (ContentKeywordRouter.get_message_key st ev.user_message_id)
      = some msg.transport_name := by
    rw [hid]
    exact hget
  refine ⟨?_, hget, ?_, ?_, ?_⟩
  · rw [ContentKeywordRouter.dispatch_outbound_message, hmap]
  · rw [hget]
    intro h
    exact hneq (Option.some.injEq .. ▸ h)
  · intro hexp
    have hmem : msg.transport_name ∈ exposed_names := by simpa using hexp
    simp [ContentKeywordRouter.dispatch_inbound_event, hgetEv, hmem]
  · intro hexp
    have hnmem : msg.transport_name ∉ exposed_names := by simpa using hexp
    simp [ContentKeywordRouter.dispatch_inbound_event, hgetEv, hnmem]

/-- C10 witness: after dispatching `msgRegister` (whose `transport_name` is
`app1`) to the resolved transport `t1`, the stored correlation value is
`app1`, not `t1`. -/
theorem contentKeyword_correlation_stores_transport_name_field_witness :
    rget (ContentKeywordRouter.dispatch_outbound_message ckrStateEx [] 5 msgRegister).2 5
        (ContentKeywordRouter.get_message_key ckrStateEx "m1")
      = some "app1" :=
  (contentKeyword_correlation_stores_transport_name_field ckrStateEx [] 5
      msgRegister evM1 ["app1"] "t1" (by decide) rfl (by decide) (by decide)).2.1

/-- Inserting into the sorted list grows it by one. -/
theorem insertSorted_length (p : String × String) (l : List (String × String)) :
    (insertSorted p l).length = l.length + 1 := by
  induction l with
  | nil => rfl
  | cons q qs ih =>
    rw [insertSorted]
    by_cases h : (strLe p.1 q.1 && (p.1 != q.1 || strLe p.2 q.2)) = true
    · rw [if_pos h]
      simp
    · rw [if_neg h]
      simp [ih]

/-- `sortPairs` preserves length. -/
theorem sortPairs_length (l : List (String × String)) :
    (sortPairs l).length = l.length := by
  induction l with
  | nil => rfl
  | cons p ps ih =>
    rw [sortPairs, insertSorted_length, ih]
    rfl

/-- Members of an insertion are the inserted pair or old members. -/
theorem insertSorted_mem (p q : String × String) (l : List (String × String))
    (h : q ∈ insertSorted p l) : q = p ∨ q ∈ l := by
  induction l with
  | nil =>
    rw [insertSorted] at h
    exact Or.inl (List.mem_singleton.mp h)
  | cons r rs ih =>
    rw [insertSorted] at h
    by_cases hc : (strLe p.1 r.1 && (p.1 != r.1 || strLe p.2 r.2)) = true
    · rw [if_pos hc] at h
      rcases List.mem_cons.mp h with h1 | h2
      · exact Or.inl h1
      · exact Or.inr h2
    · rw [if_neg hc] at h
      rcases List.mem_cons.mp h with h1 | h2
      · exact Or.inr (h1 ▸ List.mem_cons_self r rs)
      · rcases ih h2 with h3 | h4
        · exact Or.inl h3
        · exact Or.inr (List.mem_cons_of_mem r h4)

/-- `sortPairs` introduces no new members. -/
theorem sortPairs_mem (q : String × String) (l : List (String × String))
    (h : q ∈ sortPairs l) : q ∈ l := by
  induction l with
  | nil =>
    rw [sortPairs] at h
    simp at h
  | cons p ps ih =>
    rw [sortPairs] at h
    rcases insertSorted_mem p q (sortPairs ps) h with h1 | h2
    · exact h1 ▸ List.mem_cons_self p ps
    · exact List.mem_cons_of_mem p (ih h2)

/-- An in-bounds `getD` returns a member of the list. -/
theorem getD_mem_of_lt (l : List (String × String)) (i : Nat) (d : String × String)
    (h : i < l.length) : l.getD i d ∈ l := by
  rw [List.getD_eq_getElem?_getD, List.getElem?_eq_getElem h]
  exact List.getElem_mem h

/-- Looking up the key just overwritten in an association list. -/
theorem lookup_assocSet_self (l : List (String × String)) (k v : String) :
    (assocSet l k v).lookup k = some v := by
  simp [assocSet, List.lookup]

/-- `get_group_for_user` on a falsy read: assign the round-robin group,
advance the counter and persist the assignment. -/
theorem get_group_for_user_fresh (cfg : UGRConfig) (st : UGRState) (uid : String)
    (h : ((st.users.lookup (UserGroupingRouter.get_user_key cfg uid)).getD "") = "") :
    UserGroupingRouter.get_group_for_user cfg st uid
      = (((sortPairs cfg.group_mappings).getD
            (st.counter % cfg.group_mappings.length) ("", "")).1,
         { counter := st.counter + 1,
           users := assocSet st.users (UserGroupingRouter.get_user_key cfg uid)
             ((sortPairs cfg.group_mappings).getD
               (st.counter % cfg.group_mappings.length) ("", "")).1 }) := by
  simp [UserGroupingRouter.get_group_for_user, UserGroupingRouter.get_next_group,
    UserGroupingRouter.get_counter, h]

/-- `get_group_for_user` on a stored non-empty group: return it unchanged. -/
theorem get_group_for_user_stored (cfg : UGRConfig) (st : UGRState) (uid g : String)
    (h : st.users.lookup (UserGroupingRouter.get_user_key cfg uid) = some g)
    (hg : g ≠ "") :
    UserGroupingRouter.get_group_for_user cfg st uid = (g, st) := by
  simp [UserGroupingRouter.get_group_for_user, h, hg]

/-- When no configured group name is empty, a second `get_group_for_user`
for the same user reproduces the first call's result without touching the
state. -/
theorem get_group_for_user_stable (cfg : UGRConfig) (st : UGRState) (uid : String)
    (hne : cfg.group_mappings ≠ [])
    (hnames : ∀ p ∈ cfg.group_mappings, p.1 ≠ "") :
    UserGroupingRouter.get_group_for_user cfg
        (UserGroupingRouter.get_group_for_user cfg st uid).2 uid
      = UserGroupingRouter.get_group_for_user cfg st uid := by
  by_cases h : ((st.users.lookup (UserGroupingRouter.get_user_key cfg uid)).getD "") = ""
  · rw [get_group_for_user_fresh cfg st uid h]
    have hlen : st.counter % cfg.group_mappings.length
        < (sortPairs cfg.group_mappings).length := by
      rw [sortPairs_length]
      exact Nat.mod_lt _ (List.length_pos.mpr hne)
    have hmem : (sortPairs cfg.group_mappings).getD
        (st.counter % cfg.group_mappings.length) ("", "") ∈ cfg.group_mappings :=
      sortPairs_mem _ _ (getD_mem_of_lt _ _ _ hlen)
    have hg : ((sortPairs cfg.group_mappings).getD
        (st.counter % cfg.group_mappings.length) ("", "")).1 ≠ "" :=
      hnames _ hmem
    exact get_group_for_user_stored cfg _ uid _ (lookup_assocSet_self _ _ _) hg
  · obtain ⟨g, hgl⟩ : ∃ g,
        st.users.lookup (UserGroupingRouter.get_user_key cfg uid) = some g := by
      cases hl : st.users.lookup (UserGroupingRouter.get_user_key cfg uid) with
      | none => rw [hl] at h; simp at h
      | some g => exact ⟨g, rfl⟩
    have hg : g ≠ "" := by
      intro he
      rw [hgl, he] at h
      simp at h
    rw [get_group_for_user_stored cfg st uid g hgl hg]
    exact get_group_for_user_stored cfg st uid g hgl hg

/-- `UserGroupingRouter.dispatch_inbound_message` characterised through
`get_group_for_user`. -/
theorem dispatch_inbound_message_eq (cfg : UGRConfig) (st : UGRState) (msg : Msg) :
    UserGroupingRouter.dispatch_inbound_message cfg st msg
      = match cfg.group_mappings.lookup
            (UserGroupingRouter.get_group_for_user cfg st msg.user).1 with
        | some app =>
          (Except.ok { publishes := [Publish.exposedInbound app msg], logs := [] },
           (UserGroupingRouter.get_group_for_user cfg st msg.user).2)
        | none =>
          (Except.error ("KeyError: "
              ++ (UserGroupingRouter.get_group_for_user cfg st msg.user).1),
           (UserGroupingRouter.get_group_for_user cfg st msg.user).2) := rfl

/-- C3 counterexample: with groups named `""` (the empty string) and `x`,
the first call for user `u` assigns and persists the group named `""`; a
second call does not return this persisted group — the falsy read treats
it as absent — but advances the round robin and returns `x`. -/
theorem userGrouping_persisted_group_not_reused :
    (UserGroupingRouter.get_group_for_user ugrConfigEmptyName ⟨0, []⟩ "u").2.users.lookup
        (UserGroupingRouter.get_user_key ugrConfigEmptyName "u")
      = some (UserGroupingRouter.get_group_for_user ugrConfigEmptyName ⟨0, []⟩ "u").1 ∧
    (UserGroupingRouter.get_group_for_user ugrConfigEmptyName
        (UserGroupingRouter.get_group_for_user ugrConfigEmptyName ⟨0, []⟩ "u").2 "u").1
      ≠ (UserGroupingRouter.get_group_for_user ugrConfigEmptyName ⟨0, []⟩ "u").1 ∧
    (UserGroupingRouter.get_group_for_user ugrConfigEmptyName
        (UserGroupingRouter.get_group_for_user ugrConfigEmptyName ⟨0, []⟩ "u").2 "u").2.counter
      = 2 := by decide

/-- C3 (amended): provided no configured group name is the empty string,
`get_group_for_user` returns the persisted non-empty group unchanged when
one exists; otherwise it assigns entry `counter mod number_of_groups` of
the group-name-sorted configured groups, advances the one per-dispatcher
counter by one, and persists the assignment before returning it, so a
second call for the same user returns the same group with no further state
change. -/
theorem userGrouping_get_group_for_user_spec
    (cfg : UGRConfig) (st : UGRState) (uid : String)
    (hne : cfg.group_mappings ≠ [])
    (hnames : ∀ p ∈ cfg.group_mappings, p.1 ≠ "") :
    (∀ g, st.users.lookup (UserGroupingRouter.get_user_key cfg uid) = some g → g ≠ "" →
      UserGroupingRouter.get_group_for_user cfg st uid = (g, st)) ∧
    ((st.users.lookup (UserGroupingRouter.get_user_key cfg uid)).getD "" = "" →
      (UserGroupingRouter.get_group_for_user cfg st uid).1
        = ((sortPairs cfg.group_mappings).getD
            (st.counter % cfg.group_mappings.length) ("", "")).1 ∧
      (UserGroupingRouter.get_group_for_user cfg st uid).2.counter = st.counter + 1 ∧
      (UserGroupingRouter.get_group_for_user cfg st uid).2.users.lookup
          (UserGroupingRouter.get_user_key cfg uid)
        = some (UserGroupingRouter.get_group_for_user cfg st uid).1) ∧
    UserGroupingRouter.get_group_for_user cfg
        (UserGroupingRouter.get_group_for_user cfg st uid).2 uid
      = ((UserGroupingRouter.get_group_for_user cfg st uid).1,
         (UserGroupingRouter.get_group_for_user cfg st uid).2) := by
  refine ⟨?_, ?_, ?_⟩
  · intro g hg hgne
    exact get_group_for_user_stored cfg st uid g hg hgne
  · intro h
    rw [get_group_for_user_fresh cfg st uid h]
    exact ⟨rfl, rfl, lookup_assocSet_self _ _ _⟩
  · exact get_group_for_user_stable cfg st uid hne hnames

/-- C3 witness: a fresh user under groups `a`, `b` is assigned the sorted
first group `a` and the counter advances from zero to one. -/
theorem userGrouping_get_group_for_user_spec_witness :
    (UserGroupingRouter.get_group_for_user ugrConfigAB ⟨0, []⟩ "u").1 = "a" ∧
    (UserGroupingRouter.get_group_for_user ugrConfigAB ⟨0, []⟩ "u").2.counter = 1 := by
  have h := (userGrouping_get_group_for_user_spec ugrConfigAB ⟨0, []⟩ "u"
      (by decide) (by decide)).2.1 (by decide)
  refine ⟨?_, h.2.1⟩
  rw [h.1]
  decide

/-- C7 counterexample: with a group named `""` (the empty string),
dispatching the same inbound message twice publishes to different apps —
the persisted empty-string group reads back as falsy, so the second
dispatch advances the round robin instead of reusing the assignment. -/
theorem userGrouping_dispatch_not_idempotent :
    (UserGroupingRouter.dispatch_inbound_message ugrConfigEmptyName ⟨0, []⟩ msgFromU).1
      = .ok { publishes := [Publish.exposedInbound "app1" msgFromU], logs := [] } ∧
    (UserGroupingRouter.dispatch_inbound_message ugrConfigEmptyName
        (UserGroupingRouter.dispatch_inbound_message ugrConfigEmptyName
          ⟨0, []⟩ msgFromU).2 msgFromU).1
      = .ok { publishes := [Publish.exposedInbound "app2" msgFromU], logs := [] } :=
  ⟨rfl, rfl⟩

/-- C7 (amended): provided no configured group name is the empty string
(and at least one group exists), re-dispatching the same inbound message
through `UserGroupingRouter` reproduces the first result exactly — the
second dispatch reads the persisted group and does not advance the
round-robin counter; and `ContentKeywordRouter`'s inbound routing depends
only on the configured rules and fallback and the message fields, so
re-dispatching it is likewise stable.  The remaining router variants are
embedded as pure functions of configuration and message, for which
re-dispatch stability is definitional. -/
theorem inbound_dispatch_idempotent
    (cfg : UGRConfig) (st : UGRState) (msg : Msg)
    (hne : cfg.group_mappings ≠ [])
    (hnames : ∀ p ∈ cfg.group_mappings, p.1 ≠ "") :
    UserGroupingRouter.dispatch_inbound_message cfg
        (UserGroupingRouter.dispatch_inbound_message cfg st msg).2 msg
      = UserGroupingRouter.dispatch_inbound_message cfg st msg ∧
    (∀ st1 st2 : CKRState, st1.rules = st2.rules →
      st1.fallback_application = st2.fallback_application →
      ContentKeywordRouter.dispatch_inbound_message st1 msg
        = ContentKeywordRouter.dispatch_inbound_message st2 msg) := by
  constructor
  · have hstable := get_group_for_user_stable cfg st msg.user hne hnames
    have hst2 : (UserGroupingRouter.dispatch_inbound_message cfg st msg).2
        = (UserGroupingRouter.get_group_for_user cfg st msg.user).2 := by
      rw [dispatch_inbound_message_eq cfg st msg]
      cases cfg.group_mappings.lookup
          (UserGroupingRouter.get_group_for_user cfg st msg.user).1 with
      | some app => rfl
      | none => rfl
    rw [hst2, dispatch_inbound_message_eq cfg _ msg, dispatch_inbound_message_eq cfg st msg,
      hstable]
  · intro st1 st2 hr hf
    rw [ContentKeywordRouter.dispatch_inbound_message,
      ContentKeywordRouter.dispatch_inbound_message, hr, hf]

/-- C7 witness: under groups `a`, `b`, the second dispatch of the same
message equals the first. -/
theorem inbound_dispatch_idempotent_witness :
    UserGroupingRouter.dispatch_inbound_message ugrConfigAB
        (UserGroupingRouter.dispatch_inbound_message ugrConfigAB ⟨0, []⟩ msgFromU).2 msgFromU
      = UserGroupingRouter.dispatch_inbound_message ugrConfigAB ⟨0, []⟩ msgFromU :=
  (inbound_dispatch_idempotent ugrConfigAB ⟨0, []⟩ msgFromU (by decide) (by decide)).1
